import Mathlib

/-!
# Language-exchange server: request-authorisation and resource-CRUD contract

A shallow embedding of `src/index.js` (an Express application over two MongoDB
collections, `tutors` and `bokedItem`, with a JWT session cookie).

* JavaScript values are the inductive type `JsVal`; documents and JSON objects are
  association lists `JsFields`.
* A handler is a function `Env → Request → Db → Outcome × Db`.  `Env` collects what
  the process reads from outside the request (environment variables, the clock, the
  identifier parser of the driver, an injected store failure); `Db` is the content of
  the two collections together with the log of the store calls issued so far.
* An `async` handler whose awaited store call rejects outside a `try` block does not
  send a response; this is the outcome `Outcome.rejected`.
* The request body is the JSON object handed over by `express.json()` (the empty
  object when the request carries none); the query string is the object built by the
  extended query parser, so a query value is a string, an array or a nested object.
-/

namespace LanguageExchange

/-! ## JavaScript values -/

/-- JavaScript numbers: `NaN`, the two infinities and the finite values (the two signed
zeros are identified). -/
inductive JsNum where
  | nan
  | posInf
  | negInf
  | fin (q : ℚ)
deriving DecidableEq

mutual
/-- JavaScript / BSON values.  `oid` is a driver `ObjectId` (given by its canonical hex
form).  `jwt key payload` is a *string* value: the compact serialisation of the token
that carries `payload` and is signed with `key`; it is kept symbolic, so that a string
literal `str s` is never a correctly signed token. -/
inductive JsVal where
  | undefined
  | null
  | bool (b : Bool)
  | num (n : JsNum)
  | str (s : String)
  | oid (hex : String)
  | jwt (key : String) (payload : JsFields)
  | arr (xs : JsList)
  | obj (fs : JsFields)
/-- Elements of a JavaScript array. -/
inductive JsList where
  | nil
  | cons (v : JsVal) (tl : JsList)
/-- Fields of a JavaScript object or of a stored document, in order. -/
inductive JsFields where
  | nil
  | cons (k : String) (v : JsVal) (tl : JsFields)
end

deriving instance DecidableEq for JsVal, JsList, JsFields

/-- Truthiness of a number: `0` and `NaN` are falsy. -/
def JsNum.truthy : JsNum → Bool
  | .nan => false
  | .fin q => decide (q ≠ 0)
  | _ => true

/-- JavaScript truthiness (`!v` is `!v.truthy`): `undefined`, `null`, `false`, `0`, `NaN`
and the empty string are falsy, everything else is truthy. -/
def JsVal.truthy : JsVal → Bool
  | .undefined => false
  | .null => false
  | .bool b => b
  | .num n => n.truthy
  | .str s => decide (s ≠ "")
  | _ => true

/-- The JavaScript expression `a || b`. -/
def jsOr (a b : JsVal) : JsVal :=
  if a.truthy then a else b

/-- The number literal `n`. -/
def JsVal.nat (n : Nat) : JsVal :=
  .num (.fin (n : ℚ))

/-- The array with the given elements. -/
def JsList.ofList : List JsVal → JsList
  | [] => .nil
  | v :: vs => .cons v (JsList.ofList vs)

/-- Membership test `xs.includes v` by structural equality. -/
def JsList.contains : JsList → JsVal → Bool
  | .nil, _ => false
  | .cons x tl, v => decide (x = v) || tl.contains v

/-- The object literal with the given fields. -/
def JsFields.ofList : List (String × JsVal) → JsFields
  | [] => .nil
  | (k, v) :: rest => .cons k v (JsFields.ofList rest)

/-- The field names of an object, in order. -/
def JsFields.keys : JsFields → List String
  | .nil => []
  | .cons k _ tl => k :: tl.keys

/-- Look a field up; `none` when the object has no such field. -/
def JsFields.get? : JsFields → String → Option JsVal
  | .nil, _ => none
  | .cons k v tl, name => if k = name then some v else tl.get? name

/-- The property read `o.name`: `undefined` when the field is missing. -/
def JsFields.prop (o : JsFields) (name : String) : JsVal :=
  (o.get? name).getD .undefined

/-- Assign a field: replace the value in place when the field exists, append it
otherwise. -/
def JsFields.set : JsFields → String → JsVal → JsFields
  | .nil, name, v => .cons name v .nil
  | .cons k w tl, name, v => if k = name then .cons k v tl else .cons k w (tl.set name v)

/-- The driver serialises `undefined` as BSON `null` (`ignoreUndefined` is off by
default and the program does not switch it on). -/
def toBson : JsVal → JsVal
  | .undefined => .null
  | v => v

/-! ## Environment, requests and responses -/

/-- What a handler reads from outside the request. -/
structure Env where
  /-- Value of `process.env.ACCESS_TOKEN_SECRET`. -/
  ACCESS_TOKEN_SECRET : Option String
  /-- Value of `process.env.NODE_ENV`. -/
  NODE_ENV : Option String
  /-- The clock, in whole seconds since the epoch. -/
  now : Nat
  /-- Model of `ObjectId.isValid` and `new ObjectId`: `some hex` for a well-formed identifier
  string (with the canonical hex form of the identifier), `none` otherwise. -/
  objectId : String → Option String
  /-- The store evaluating a query operator other than `$eq` / `$ne` on a string. -/
  operators : String → JsVal → Except String (Option JsVal → Bool)
  /-- A failure injected into the store call of this request (connection lost, ...). -/
  storeFault : Option String
  /-- The identifier the driver generates for an inserted document without `_id`. -/
  freshId : String

/-- An incoming request after the `cookieParser()` and `express.json()` middlewares. -/
structure Request where
  /-- Value of `req.cookies`. -/
  cookies : JsFields
  /-- Value of `req.body`. -/
  body : JsFields
  /-- Value of `req.query`. -/
  query : JsFields
  /-- Value of `req.params.id`. -/
  id : String
  /-- Value of `req.user`. -/
  user : JsVal
deriving DecidableEq

/-- The options object passed to `res.cookie` / `res.clearCookie`. -/
structure CookieOptions where
  httpOnly : Bool
  secure : Bool
  sameSite : String
deriving DecidableEq

/-- A `Set-Cookie` effect of a response. -/
inductive CookieOp where
  | set (name : String) (value : JsVal) (opts : CookieOptions)
  | clear (name : String) (opts : CookieOptions)
deriving DecidableEq

/-- A response that has been sent. -/
structure Response where
  status : Nat
  body : JsVal
  cookies : List CookieOp
deriving DecidableEq

/-- How a handler ends: it sends a response, or its promise rejects without a response
having been sent. -/
inductive Outcome where
  | sent (r : Response)
  | rejected (err : String)
deriving DecidableEq

/-- The body `{ message: m }`. -/
def messageBody (m : String) : JsVal :=
  .obj (.ofList [("message", .str m)])

/-- The body `{ error: m }`. -/
def errorBody (m : String) : JsVal :=
  .obj (.ofList [("error", .str m)])

/-- The body carries a `message` or an `error` field. -/
def hasMessageOrError : JsVal → Bool
  | .obj fs => (fs.get? "message").isSome || (fs.get? "error").isSome
  | _ => false

/-! ## Token service -/

/-- Modelled from the spec: the Token Service operation `issue` ("produces a signed token
embedding the claim and a fixed expiry; deterministic given fixed signing secret and
clock"), which the program takes from the `jsonwebtoken` package (`jwt.sign`), absent
from the sources.  The token carries the claim, the issuance time `iat` and the expiry
`exp = iat + expiresIn` (in seconds); signing needs a non-empty secret. -/
def jwtSign (payload : JsFields) (secret : Option String) (expiresIn : Nat) (now : Nat) :
    Except String JsVal :=
  match secret with
  | none => .error "secretOrPrivateKey must have a value"
  | some key =>
    if key = "" then .error "secretOrPrivateKey must have a value"
    else .ok (.jwt key ((payload.set "iat" (.nat now)).set "exp" (.nat (now + expiresIn))))

/-- Modelled from the spec: the Token Service operation `verify` ("fails if signature
invalid, payload malformed, or expiry elapsed"), which the program takes from the
`jsonwebtoken` package (`jwt.verify`), absent from the sources.  A value that is not a
token signed with the configured secret is rejected, and so is a token whose `exp` is
not in the future; otherwise the decoded payload is returned. -/
def jwtVerify (token : JsVal) (secret : Option String) (now : Nat) : Except String JsFields :=
  match token with
  | .jwt key payload =>
    match secret with
    | none => .error "secret or public key must be provided"
    | some k =>
      if k = "" then .error "secret or public key must be provided"
      else if key ≠ k then .error "invalid signature"
      else
        match payload.get? "exp" with
        | none => .ok payload
        | some (.num (.fin e)) => if e ≤ (now : ℚ) then .error "jwt expired" else .ok payload
        | some _ => .error "invalid exp value"
  | .str _ => .error "jwt malformed"
  | _ => .error "jwt must be a string"

/-- Five hours, the `expiresIn: '5h'` option of the login route, in seconds. -/
def fiveHours : Nat := 5 * 60 * 60

/-! ## Auth gate -/

/-- Result of a middleware: it ends the request with a response, or it calls `next()`
with the (possibly enriched) request. -/
inductive Gate where
  | respond (r : Response)
  | next (req : Request)
deriving DecidableEq

/-- The middleware `verifyToken` (index.js, lines 20-29). -/
def verifyToken (E : Env) (req : Request) : Gate :=
  let token := req.cookies.prop "token"
  if !token.truthy then .respond ⟨401, messageBody "No token, unauthorized", []⟩
  else
    match jwtVerify token E.ACCESS_TOKEN_SECRET E.now with
    | .error _ => .respond ⟨403, messageBody "Invalid or expired token", []⟩
    | .ok decoded => .next { req with user := .obj decoded }

/-! ## Document store -/

/-- A query filter with one field, as built by the handlers: `{ email }` is
`⟨"email", email⟩` and `{ _id: new ObjectId(id) }` is `⟨"_id", .oid hex⟩`. -/
structure Filter where
  field : String
  cond : JsVal
deriving DecidableEq

/-- A store call issued by a handler. -/
inductive StoreCall where
  | insertOne (coll : String) (doc : JsFields)
  | findAll (coll : String)
  | find (coll : String) (filter : Filter)
  | findOne (coll : String) (filter : Filter)
  | updateOne (coll : String) (filter : Filter) (setFields : JsFields)
  | deleteOne (coll : String) (filter : Filter)
deriving DecidableEq

/-- The two collections of the `LanguageTutor` database and the log of the store calls
issued so far (oldest first). -/
structure Db where
  tutors : List JsFields
  bokedItem : List JsFields
  calls : List StoreCall
deriving DecidableEq

/-- Record a store call in the log. -/
def Db.log (db : Db) (c : StoreCall) : Db :=
  { db with calls := db.calls ++ [c] }

/-- Equality match of the store: a field matches the value `v` when it equals `v`, or when
it is an array with an element equal to `v`; a missing field matches only `null`. -/
def eqMatch (v : JsVal) : Option JsVal → Bool
  | none => decide (v = .null)
  | some (.arr xs) => decide (JsVal.arr xs = v) || xs.contains v
  | some f => decide (f = v)

/-- A condition object is an operator expression when its first key starts with `$`. -/
def isOperatorExpr : JsVal → Bool
  | .obj (.cons k _ _) => decide (k.data.head? = some '$')
  | _ => false

/-- One query operator: `$eq` and `$ne` applied to a string are evaluated here, every
other operator (or operand) is left to the store (`E.operators`). -/
def compileOperator (E : Env) (op : String) (arg : JsVal) :
    Except String (Option JsVal → Bool) :=
  match arg with
  | .str s =>
    if op = "$eq" then .ok (eqMatch (.str s))
    else if op = "$ne" then .ok (fun f => !eqMatch (.str s) f)
    else E.operators op arg
  | _ => E.operators op arg

/-- An operator expression is the conjunction of its operators; it is rejected when one of
them is. -/
def compileOperators (E : Env) : JsFields → Except String (Option JsVal → Bool)
  | .nil => .ok (fun _ => true)
  | .cons op arg rest =>
    match compileOperator E op arg, compileOperators E rest with
    | .ok p, .ok q => .ok (fun f => p f && q f)
    | .error e, _ => .error e
    | .ok _, .error e => .error e

/-- The store parsing the condition on a field: an operator expression or, for any other
value, an equality match. -/
def compileCond (E : Env) (cond : JsVal) : Except String (Option JsVal → Bool) :=
  match cond with
  | .obj fs => if isOperatorExpr (.obj fs) then compileOperators E fs else .ok (eqMatch (.obj fs))
  | v => .ok (eqMatch (toBson v))

/-- The store parsing a filter into a predicate on documents. -/
def compileFilter (E : Env) (q : Filter) : Except String (JsFields → Bool) :=
  match compileCond E q.cond with
  | .ok p => .ok (fun doc => p (doc.get? q.field))
  | .error e => .error e

/-- Collection method `find(filter).toArray()`: the matching documents in stored order. -/
def findMany (E : Env) (docs : List JsFields) (q : Filter) : Except String (List JsFields) :=
  match E.storeFault with
  | some e => .error e
  | none =>
    match compileFilter E q with
    | .ok p => .ok (docs.filter p)
    | .error e => .error e

/-- Collection method `find().toArray()`: every document. -/
def findEvery (E : Env) (docs : List JsFields) : Except String (List JsFields) :=
  match E.storeFault with
  | some e => .error e
  | none => .ok docs

/-- Collection method `findOne(filter)`: the first matching document, `null` when there is
none. -/
def findOne (E : Env) (docs : List JsFields) (q : Filter) : Except String JsVal :=
  match E.storeFault with
  | some e => .error e
  | none =>
    match compileFilter E q with
    | .ok p =>
      match docs.find? p with
      | some d => .ok (.obj d)
      | none => .ok .null
    | .error e => .error e

/-- Apply `$set` with the given fields to a document (values serialised as BSON). -/
def applySet : JsFields → JsFields → JsFields
  | doc, .nil => doc
  | doc, .cons k v rest => applySet (doc.set k (toBson v)) rest

/-- Update the first document satisfying `p`; returns the matched count, the modified
count and the new content. -/
def updateFirst (p : JsFields → Bool) (setFields : JsFields) :
    List JsFields → Nat × Nat × List JsFields
  | [] => (0, 0, [])
  | d :: ds =>
    if p d then (1, if applySet d setFields = d then 0 else 1, applySet d setFields :: ds)
    else
      let r := updateFirst p setFields ds
      (r.1, r.2.1, d :: r.2.2)

/-- The acknowledgement returned by `updateOne`. -/
def updateResult (matched modified : Nat) : JsVal :=
  .obj (.ofList [("acknowledged", .bool true), ("modifiedCount", .nat modified),
    ("upsertedId", .null), ("upsertedCount", .nat 0), ("matchedCount", .nat matched)])

/-- Collection method `updateOne(filter, { $set: setFields })`: returns the matched count,
the acknowledgement and the new content of the collection. -/
def updateOne (E : Env) (docs : List JsFields) (q : Filter) (setFields : JsFields) :
    Except String (Nat × JsVal × List JsFields) :=
  match E.storeFault with
  | some e => .error e
  | none =>
    match compileFilter E q with
    | .ok p =>
      let r := updateFirst p setFields docs
      .ok (r.1, updateResult r.1 r.2.1, r.2.2)
    | .error e => .error e

/-- Remove the first document satisfying `p`; returns the deleted count and the new
content. -/
def deleteFirst (p : JsFields → Bool) : List JsFields → Nat × List JsFields
  | [] => (0, [])
  | d :: ds =>
    if p d then (1, ds)
    else
      let r := deleteFirst p ds
      (r.1, d :: r.2)

/-- Collection method `deleteOne(filter)`: returns the deleted count and the new content of
the collection. -/
def deleteOne (E : Env) (docs : List JsFields) (q : Filter) :
    Except String (Nat × List JsFields) :=
  match E.storeFault with
  | some e => .error e
  | none =>
    match compileFilter E q with
    | .ok p => .ok (deleteFirst p docs)
    | .error e => .error e

/-- The value is an array (the store refuses an array as `_id`). -/
def JsVal.isArray : JsVal → Bool
  | .arr _ => true
  | _ => false

/-- Collection method `insertOne(doc)`: the driver assigns the generated identifier to a
document whose `_id` is missing or `null`; the store refuses an array `_id` and an `_id`
already present in the collection.  Returns the acknowledgement and the new content of
the collection. -/
def insertOne (E : Env) (docs : List JsFields) (doc : JsFields) :
    Except String (JsVal × List JsFields) :=
  match E.storeFault with
  | some e => .error e
  | none =>
    let stored :=
      if toBson (doc.prop "_id") = .null then doc.set "_id" (.oid E.freshId) else doc
    let key := stored.prop "_id"
    if key.isArray then .error "The _id value cannot be of type array"
    else if docs.any (fun d => decide (d.get? "_id" = some key)) then
      .error "E11000 duplicate key error"
    else .ok (.obj (.ofList [("acknowledged", .bool true), ("insertedId", key)]), docs ++ [stored])

/-- The response body for a list of documents. -/
def docsBody (docs : List JsFields) : JsVal :=
  .arr (.ofList (docs.map .obj))

/-! ## Routes -/

/-- A route handler. -/
abbrev Handler := Env → Request → Db → Outcome × Db

/-- A route registered with the middleware `verifyToken` in front of its handler, as in
`app.post('/bokedItem', verifyToken, handler)`. -/
def guarded (h : Handler) : Handler := fun E req db =>
  match verifyToken E req with
  | .respond r => (.sent r, db)
  | .next req' => h E req' db

/-- Route `POST /login` (index.js, lines 49-61). -/
def login : Handler := fun E req db =>
  let email := req.body.prop "email"
  if !email.truthy then (.sent ⟨400, messageBody "Email is required", []⟩, db)
  else
    let user := JsFields.ofList [("email", email)]
    match jwtSign user E.ACCESS_TOKEN_SECRET fiveHours E.now with
    | .error e => (.rejected e, db)
    | .ok token =>
      (.sent ⟨200,
          .obj (.ofList [("success", .bool true), ("message", .str "Login successful")]),
          [.set "token" token
            { httpOnly := true
              secure := decide (E.NODE_ENV = some "production")
              sameSite := if E.NODE_ENV = some "production" then "none" else "strict" }]⟩,
        db)

/-- Route `POST /logout` (index.js, lines 63-69). -/
def logout : Handler := fun E _ db =>
  (.sent ⟨200,
      .obj (.ofList [("success", .bool true), ("message", .str "Logged out successfully")]),
      [.clear "token"
        { httpOnly := true
          secure := decide (E.NODE_ENV = some "production")
          sameSite := if E.NODE_ENV = some "production" then "none" else "strict" }]⟩,
    db)

/-- Route `POST /tutors` (index.js, lines 72-76). -/
def postTutors : Handler := fun E req db =>
  let tutorInfo := req.body
  let db := db.log (.insertOne "tutors" tutorInfo)
  match insertOne E db.tutors tutorInfo with
  | .error e => (.rejected e, db)
  | .ok (result, docs) => (.sent ⟨200, result, []⟩, { db with tutors := docs })

/-- Route `GET /tutors` (index.js, lines 78-82). -/
def getTutors : Handler := fun E _ db =>
  let db := db.log (.findAll "tutors")
  match findEvery E db.tutors with
  | .error e => (.rejected e, db)
  | .ok result => (.sent ⟨200, docsBody result, []⟩, db)

/-- Route `GET /tutors/email` (index.js, lines 84-88). -/
def getTutorByEmail : Handler := fun E req db =>
  let email := req.query.prop "email"
  let db := db.log (.findOne "tutors" ⟨"email", email⟩)
  match findOne E db.tutors ⟨"email", email⟩ with
  | .error e => (.rejected e, db)
  | .ok result => (.sent ⟨200, jsOr result .null, []⟩, db)

/-- Route `GET /tutors/:id` (index.js, lines 90-95). -/
def getTutorById : Handler := fun E req db =>
  let id := req.id
  match E.objectId id with
  | none => (.sent ⟨400, errorBody "Invalid ID format", []⟩, db)
  | some hex =>
    let db := db.log (.findOne "tutors" ⟨"_id", .oid hex⟩)
    match findOne E db.tutors ⟨"_id", .oid hex⟩ with
    | .error e => (.rejected e, db)
    | .ok tutor => (.sent ⟨200, tutor, []⟩, db)

/-- The fields of the `$set` document built by `PUT /tutors/:id` (index.js, lines
104-112). -/
def updateDoc (updatedTutor : JsFields) : JsFields :=
  .ofList [
    ("image", updatedTutor.prop "image"),
    ("language", updatedTutor.prop "language"),
    ("price", updatedTutor.prop "price"),
    ("description", updatedTutor.prop "description"),
    ("reviewCount", jsOr (updatedTutor.prop "reviewCount") (.nat 0))]

/-- Route `PUT /tutors/:id` (index.js, lines 97-122). -/
def putTutor : Handler := fun E req db =>
  let id := req.id
  match E.objectId id with
  | none => (.sent ⟨400, errorBody "Invalid ID format", []⟩, db)
  | some hex =>
    let updatedTutor := req.body
    let query : Filter := ⟨"_id", .oid hex⟩
    let db := db.log (.updateOne "tutors" query (updateDoc updatedTutor))
    match updateOne E db.tutors query (updateDoc updatedTutor) with
    | .ok (matchedCount, result, docs) =>
      if matchedCount = 0 then
        (.sent ⟨404, messageBody "Tutor not found", []⟩, { db with tutors := docs })
      else
        (.sent ⟨200, .obj (.ofList [("success", .bool true), ("result", result)]), []⟩,
          { db with tutors := docs })
    | .error error =>
      (.sent ⟨500,
          .obj (.ofList [("error", .str "Internal Server Error"), ("message", .str error)]),
          []⟩,
        db)

/-- Route `DELETE /tutors/:id` (index.js, lines 124-133). -/
def deleteTutor : Handler := fun E req db =>
  let id := req.id
  match E.objectId id with
  | none => (.sent ⟨400, messageBody "Invalid ID format", []⟩, db)
  | some hex =>
    let query : Filter := ⟨"_id", .oid hex⟩
    let db := db.log (.deleteOne "tutors" query)
    match deleteOne E db.tutors query with
    | .error e => (.rejected e, db)
    | .ok (deletedCount, docs) =>
      if deletedCount = 0 then
        (.sent ⟨404, messageBody "Tutor not found", []⟩, { db with tutors := docs })
      else
        (.sent ⟨200,
            .obj (.ofList [("success", .bool true), ("deletedCount", .nat deletedCount)]),
            []⟩,
          { db with tutors := docs })

/-- The handler of `POST /bokedItem`, behind the gate (index.js, lines 136-140). -/
def insertBoked : Handler := fun E req db =>
  let item := req.body
  let db := db.log (.insertOne "bokedItem" item)
  match insertOne E db.bokedItem item with
  | .error e => (.rejected e, db)
  | .ok (result, docs) => (.sent ⟨200, result, []⟩, { db with bokedItem := docs })

/-- The handler of `GET /bokedItem`, behind the gate (index.js, lines 142-153). -/
def listBoked : Handler := fun E req db =>
  let email := req.query.prop "email"
  if !email.truthy then
    (.sent ⟨400, messageBody "Email query parameter is required.", []⟩, db)
  else
    let db := db.log (.find "bokedItem" ⟨"email", email⟩)
    match findMany E db.bokedItem ⟨"email", email⟩ with
    | .ok result => (.sent ⟨200, docsBody result, []⟩, db)
    | .error error =>
      (.sent ⟨500,
          .obj (.ofList [("message", .str "Failed to fetch booked items by email"),
            ("error", .str error)]),
          []⟩,
        db)

/-- Route `POST /bokedItem`. -/
def postBokedItem : Handler := guarded insertBoked

/-- Route `GET /bokedItem`. -/
def getBokedItem : Handler := guarded listBoked

/-! ## Store invariant and sample data -/

/-- The document has an `_id` that is not an array. -/
def hasKey (d : JsFields) : Bool :=
  match d.get? "_id" with
  | some v => !v.isArray
  | none => false

/-- The invariant the store maintains on a collection: every document has an `_id`, which
is not an array, and no two documents share their `_id`. -/
def StoreInv (docs : List JsFields) : Prop :=
  (∀ d ∈ docs, hasKey d = true) ∧ (docs.map (fun d => d.get? "_id")).Nodup

/-- A hexadecimal digit. -/
def isHexDigit (c : Char) : Bool :=
  c.isDigit || (decide ('a' ≤ c) && decide (c ≤ 'f')) || (decide ('A' ≤ c) && decide (c ≤ 'F'))

/-- An identifier parser accepting exactly the strings of 24 hexadecimal digits, with the
lower-case string as canonical form. -/
def hexObjectId (s : String) : Option String :=
  if s.data.length = 24 ∧ s.data.all isHexDigit = true then some (String.mk (s.data.map Char.toLower))
  else none

/-- A store that knows no operator beyond the ones evaluated by `compileOperator`. -/
def noOperators (op : String) (_ : JsVal) : Except String (Option JsVal → Bool) :=
  .error ("unknown operator: " ++ op)

/-- A development environment in which the store answers. -/
def sampleEnv : Env :=
  { ACCESS_TOKEN_SECRET := some "s3cret"
    NODE_ENV := none
    now := 1000
    objectId := hexObjectId
    operators := noOperators
    storeFault := none
    freshId := "64b7f3c2a1d4e5f607182999" }

/-- The same environment with the store connection lost. -/
def failingEnv : Env :=
  { sampleEnv with storeFault := some "connection closed" }

/-- The same environment in production. -/
def productionEnv : Env :=
  { sampleEnv with NODE_ENV := some "production" }

/-- Identifier of the first sample tutor. -/
def idA : String := "64b7f3c2a1d4e5f60718293a"

/-- Identifier of the second sample tutor. -/
def idB : String := "64b7f3c2a1d4e5f60718293b"

/-- A tutor document. -/
def tutorA : JsFields :=
  .ofList [("_id", .oid idA), ("email", .str "ana@example.com"), ("language", .str "Spanish"),
    ("price", .nat 20), ("rating", .nat 5)]

/-- Another tutor document. -/
def tutorB : JsFields :=
  .ofList [("_id", .oid idB), ("email", .str "bo@example.com"), ("language", .str "Thai"),
    ("image", .str "bo.png")]

/-- A booking whose `email` is a string. -/
def bookingY : JsFields :=
  .ofList [("_id", .oid idA), ("email", .str "y@example.com"), ("tutor", .str "Ana")]

/-- A booking whose `email` is an array. -/
def bookingXs : JsFields :=
  .ofList [("_id", .oid idB),
    ("email", .arr (.ofList [.str "x@example.com", .str "z@example.com"]))]

/-- A database with two tutors and two bookings. -/
def sampleDb : Db :=
  { tutors := [tutorA, tutorB], bokedItem := [bookingY, bookingXs], calls := [] }

/-- The session token issued at time 1000 for `x@example.com` under the sample secret. -/
def sampleToken : JsVal :=
  .jwt "s3cret" (.ofList [("email", .str "x@example.com"), ("iat", .nat 1000),
    ("exp", .nat 19000)])

/-- A token for the same claim signed with another secret. -/
def forgedToken : JsVal :=
  .jwt "guess" (.ofList [("email", .str "x@example.com"), ("iat", .nat 1000),
    ("exp", .nat 19000)])

/-- The payload of `sampleToken`. -/
def sampleClaim : JsFields :=
  .ofList [("email", .str "x@example.com"), ("iat", .nat 1000), ("exp", .nat 19000)]

/-- A request with the given cookies, body, query and identifier. -/
def mkRequest (cookies body query : List (String × JsVal)) (id : String) : Request :=
  { cookies := .ofList cookies, body := .ofList body, query := .ofList query, id := id,
    user := .undefined }

/-! ## Basic facts -/

theorem get?_set : ∀ (fs : JsFields) (k : String) (v : JsVal) (name : String),
    (fs.set k v).get? name = if k = name then some v else fs.get? name
  | .nil, k, v, name => by simp [JsFields.set, JsFields.get?]
  | .cons k' w tl, k, v, name => by
    have ih := get?_set tl k v name
    by_cases hk : k' = k
    · subst hk
      by_cases hn : k' = name <;> simp [JsFields.set, JsFields.get?, hn]
    · by_cases hn : k' = name
      · subst hn
        have : ¬ k = k' := fun h => hk h.symm
        simp [JsFields.set, JsFields.get?, hk, this]
      · simp [JsFields.set, JsFields.get?, hk, hn, ih]

theorem falsy_iff (v : JsVal) :
    v.truthy = false ↔
      v = .undefined ∨ v = .null ∨ v = .bool false ∨ v = .num (.fin 0) ∨ v = .num .nan ∨
        v = .str "" := by
  cases v with
  | num n => cases n <;> simp [JsVal.truthy, JsNum.truthy]
  | _ => simp [JsVal.truthy]

theorem jwtVerify_ok_truthy {token : JsVal} {secret : Option String} {now : Nat}
    {decoded : JsFields} (h : jwtVerify token secret now = .ok decoded) :
    token.truthy = true := by
  cases token <;> simp [jwtVerify] at h
  simp [JsVal.truthy]

theorem verifyToken_falsy {E : Env} {req : Request}
    (h : (req.cookies.prop "token").truthy = false) :
    verifyToken E req = .respond ⟨401, messageBody "No token, unauthorized", []⟩ := by
  simp [verifyToken, h]

theorem verifyToken_error {E : Env} {req : Request} {e : String}
    (ht : (req.cookies.prop "token").truthy = true)
    (h : jwtVerify (req.cookies.prop "token") E.ACCESS_TOKEN_SECRET E.now = .error e) :
    verifyToken E req = .respond ⟨403, messageBody "Invalid or expired token", []⟩ := by
  simp [verifyToken, ht, h]

theorem verifyToken_ok {E : Env} {req : Request} {decoded : JsFields}
    (h : jwtVerify (req.cookies.prop "token") E.ACCESS_TOKEN_SECRET E.now = .ok decoded) :
    verifyToken E req = .next { req with user := .obj decoded } := by
  simp [verifyToken, jwtVerify_ok_truthy h, h]

theorem jwtVerify_signed (payload : JsFields) (key : String) (hk : key ≠ "") (d t u : Nat) :
    jwtVerify (.jwt key ((payload.set "iat" (.nat t)).set "exp" (.nat (t + d)))) (some key) u =
      if t + d ≤ u then .error "jwt expired"
      else .ok ((payload.set "iat" (.nat t)).set "exp" (.nat (t + d))) := by
  have hexp : ((payload.set "iat" (.nat t)).set "exp" (.nat (t + d))).get? "exp" =
      some (.num (.fin ((t + d : Nat) : ℚ))) := by
    rw [get?_set]; simp [JsVal.nat]
  simp only [jwtVerify, hk, if_false, ne_eq, not_true_eq_false, hexp]
  by_cases h : t + d ≤ u
  · have : ((t + d : Nat) : ℚ) ≤ (u : ℚ) := by exact_mod_cast h
    rw [if_pos this, if_pos h]
  · have : ¬ ((t + d : Nat) : ℚ) ≤ (u : ℚ) := by exact_mod_cast h
    rw [if_neg this, if_neg h]

theorem claim_email (email : JsVal) (t d : Nat) :
    (((JsFields.ofList [("email", email)]).set "iat" (.nat t)).set "exp" (.nat (t + d))).get?
      "email" = some email := by
  simp [get?_set, JsFields.ofList, JsFields.get?]

theorem applySet_get?_of_not_mem : ∀ (fs doc : JsFields) (k : String),
    k ∉ fs.keys → (applySet doc fs).get? k = doc.get? k
  | .nil, doc, k, _ => by simp [applySet]
  | .cons k' v rest, doc, k, h => by
    have hk : ¬ k' = k := fun e => h (by simp [JsFields.keys, e])
    have hr : k ∉ rest.keys := fun e => h (by simp [JsFields.keys, e])
    rw [applySet, applySet_get?_of_not_mem rest _ k hr, get?_set, if_neg hk]

theorem updateDoc_keys (body : JsFields) :
    (updateDoc body).keys = ["image", "language", "price", "description", "reviewCount"] := by
  simp [updateDoc, JsFields.ofList, JsFields.keys]

theorem applySet_updateDoc_get? (doc body : JsFields) (k : String)
    (hk : k ∈ ["image", "language", "price", "description", "reviewCount"]) :
    (applySet doc (updateDoc body)).get? k = some (toBson ((updateDoc body).prop k)) := by
  simp only [List.mem_cons, List.mem_singleton, List.not_mem_nil, or_false] at hk
  rcases hk with h | h | h | h | h <;> subst h <;>
    simp [updateDoc, JsFields.ofList, applySet, get?_set, JsFields.prop, JsFields.get?]

theorem login_truthy (E : Env) (req : Request) (db : Db) (key : String)
    (ht : (req.body.prop "email").truthy = true) (hs : E.ACCESS_TOKEN_SECRET = some key)
    (hk : key ≠ "") :
    login E req db =
      (.sent ⟨200,
          .obj (.ofList [("success", .bool true), ("message", .str "Login successful")]),
          [.set "token"
            (.jwt key (((JsFields.ofList [("email", req.body.prop "email")]).set "iat"
              (.nat E.now)).set "exp" (.nat (E.now + fiveHours))))
            { httpOnly := true
              secure := decide (E.NODE_ENV = some "production")
              sameSite := if E.NODE_ENV = some "production" then "none" else "strict" }]⟩,
        db) := by
  simp [login, ht, hs, jwtSign, hk]

theorem toBson_of_truthy {v : JsVal} (h : v.truthy = true) : toBson v = v := by
  cases v <;> simp [toBson, JsVal.truthy] at h ⊢

theorem compileCond_of_not_operator (E : Env) {v : JsVal} (ht : v.truthy = true)
    (hop : isOperatorExpr v = false) : compileCond E v = .ok (eqMatch v) := by
  cases v <;> simp [compileCond, toBson, JsVal.truthy, hop] at ht ⊢

theorem eqMatch_iff {v : JsVal} (hv : v ≠ .null) (f : Option JsVal) :
    eqMatch v f = true ↔
      f = some v ∨ ∃ xs, f = some (.arr xs) ∧ xs.contains v = true := by
  cases f with
  | none => simp [eqMatch, hv]
  | some w =>
    cases w <;> simp [eqMatch]

theorem listBoked_falsy (E : Env) (req : Request) (db : Db)
    (h : (req.query.prop "email").truthy = false) :
    listBoked E req db =
      (.sent ⟨400, messageBody "Email query parameter is required.", []⟩, db) := by
  simp [listBoked, h]

theorem listBoked_equality (E : Env) (req : Request) (db : Db)
    (ht : (req.query.prop "email").truthy = true)
    (hop : isOperatorExpr (req.query.prop "email") = false) (hf : E.storeFault = none) :
    listBoked E req db =
      (.sent ⟨200,
          docsBody (db.bokedItem.filter
            (fun d => eqMatch (req.query.prop "email") (d.get? "email"))), []⟩,
        db.log (.find "bokedItem" ⟨"email", req.query.prop "email"⟩)) := by
  simp [listBoked, ht, findMany, hf, compileFilter, compileCond_of_not_operator E ht hop, Db.log]

theorem compileFilter_id (E : Env) (hex : String) :
    compileFilter E ⟨"_id", .oid hex⟩ =
      .ok (fun doc => eqMatch (.oid hex) (doc.get? "_id")) := by
  simp [compileFilter, compileCond, toBson]

theorem idMatch_of_hasKey {d : JsFields} (h : hasKey d = true) (hex : String) :
    eqMatch (.oid hex) (d.get? "_id") = decide (d.get? "_id" = some (.oid hex)) := by
  unfold hasKey at h
  cases hg : d.get? "_id" with
  | none => simp [hg] at h
  | some v =>
    cases v <;> simp [hg, JsVal.isArray] at h <;> simp [eqMatch]

theorem updateFirst_of_none (p : JsFields → Bool) (s : JsFields) :
    ∀ docs : List JsFields, (∀ d ∈ docs, p d = false) → updateFirst p s docs = (0, 0, docs)
  | [], _ => rfl
  | d :: ds, h => by
    have hd : p d = false := h d (by simp)
    have ih := updateFirst_of_none p s ds (fun x hx => h x (by simp [hx]))
    simp [updateFirst, hd, ih]

theorem updateFirst_of_split (p : JsFields → Bool) (s d : JsFields) (post : List JsFields)
    (hd : p d = true) :
    ∀ pre : List JsFields, (∀ x ∈ pre, p x = false) →
      updateFirst p s (pre ++ d :: post) =
        (1, (if applySet d s = d then 0 else 1), pre ++ applySet d s :: post)
  | [], _ => by simp [updateFirst, hd]
  | x :: pre, h => by
    have hx : p x = false := h x (by simp)
    have ih := updateFirst_of_split p s d post hd pre (fun y hy => h y (by simp [hy]))
    simp [updateFirst, hx, ih]

theorem deleteFirst_of_none (p : JsFields → Bool) :
    ∀ docs : List JsFields, (∀ d ∈ docs, p d = false) → deleteFirst p docs = (0, docs)
  | [], _ => rfl
  | d :: ds, h => by
    have hd : p d = false := h d (by simp)
    have ih := deleteFirst_of_none p ds (fun x hx => h x (by simp [hx]))
    simp [deleteFirst, hd, ih]

theorem deleteFirst_of_split (p : JsFields → Bool) (d : JsFields) (post : List JsFields)
    (hd : p d = true) :
    ∀ pre : List JsFields, (∀ x ∈ pre, p x = false) →
      deleteFirst p (pre ++ d :: post) = (1, pre ++ post)
  | [], _ => by simp [deleteFirst, hd]
  | x :: pre, h => by
    have hx : p x = false := h x (by simp)
    have ih := deleteFirst_of_split p d post hd pre (fun y hy => h y (by simp [hy]))
    simp [deleteFirst, hx, ih]

theorem split_at_key {docs : List JsFields} (hinv : StoreInv docs) {d : JsFields}
    (hd : d ∈ docs) :
    ∃ pre post, docs = pre ++ d :: post ∧ (∀ x ∈ pre, x.get? "_id" ≠ d.get? "_id") ∧
      (∀ x ∈ post, x.get? "_id" ≠ d.get? "_id") := by
  obtain ⟨pre, post, rfl⟩ := List.append_of_mem hd
  refine ⟨pre, post, rfl, ?_, ?_⟩
  · intro x hx he
    have hnd := hinv.2
    rw [List.map_append, List.map_cons] at hnd
    have h1 := (List.nodup_middle.mp hnd)
    have h2 := (List.nodup_cons.mp h1).1
    exact h2 (List.mem_append_left _ (he ▸ List.mem_map_of_mem _ hx))
  · intro x hx he
    have hnd := hinv.2
    rw [List.map_append, List.map_cons] at hnd
    have h1 := (List.nodup_middle.mp hnd)
    have h2 := (List.nodup_cons.mp h1).1
    exact h2 (List.mem_append_right _ (he ▸ List.mem_map_of_mem _ hx))

theorem storeInv_remove {pre post : List JsFields} {d : JsFields}
    (hinv : StoreInv (pre ++ d :: post)) : StoreInv (pre ++ post) := by
  refine ⟨fun x hx => hinv.1 x ?_, ?_⟩
  · rcases List.mem_append.mp hx with h | h
    · exact List.mem_append_left _ h
    · exact List.mem_append_right _ (List.mem_cons_of_mem _ h)
  · have hnd := hinv.2
    rw [List.map_append, List.map_cons] at hnd
    have h1 := (List.nodup_middle.mp hnd)
    rw [List.map_append]
    exact (List.nodup_cons.mp h1).2

theorem putTutor_eq (E : Env) (req : Request) (db : Db) (hex : String)
    (hid : E.objectId req.id = some hex) (hf : E.storeFault = none) :
    putTutor E req db =
      if (updateFirst (fun doc => eqMatch (.oid hex) (doc.get? "_id")) (updateDoc req.body)
          db.tutors).1 = 0 then
        (.sent ⟨404, messageBody "Tutor not found", []⟩,
          { db.log (.updateOne "tutors" ⟨"_id", .oid hex⟩ (updateDoc req.body)) with
            tutors := (updateFirst (fun doc => eqMatch (.oid hex) (doc.get? "_id"))
              (updateDoc req.body) db.tutors).2.2 })
      else
        (.sent ⟨200,
            .obj (.ofList [("success", .bool true),
              ("result", updateResult
                (updateFirst (fun doc => eqMatch (.oid hex) (doc.get? "_id"))
                  (updateDoc req.body) db.tutors).1
                (updateFirst (fun doc => eqMatch (.oid hex) (doc.get? "_id"))
                  (updateDoc req.body) db.tutors).2.1)]), []⟩,
          { db.log (.updateOne "tutors" ⟨"_id", .oid hex⟩ (updateDoc req.body)) with
            tutors := (updateFirst (fun doc => eqMatch (.oid hex) (doc.get? "_id"))
              (updateDoc req.body) db.tutors).2.2 }) := by
  simp [putTutor, hid, updateOne, hf, compileFilter_id, Db.log]

theorem deleteTutor_eq (E : Env) (req : Request) (db : Db) (hex : String)
    (hid : E.objectId req.id = some hex) (hf : E.storeFault = none) :
    deleteTutor E req db =
      if (deleteFirst (fun doc => eqMatch (.oid hex) (doc.get? "_id")) db.tutors).1 = 0 then
        (.sent ⟨404, messageBody "Tutor not found", []⟩,
          { db.log (.deleteOne "tutors" ⟨"_id", .oid hex⟩) with
            tutors := (deleteFirst (fun doc => eqMatch (.oid hex) (doc.get? "_id"))
              db.tutors).2 })
      else
        (.sent ⟨200,
            .obj (.ofList [("success", .bool true),
              ("deletedCount", .nat (deleteFirst
                (fun doc => eqMatch (.oid hex) (doc.get? "_id")) db.tutors).1)]), []⟩,
          { db.log (.deleteOne "tutors" ⟨"_id", .oid hex⟩) with
            tutors := (deleteFirst (fun doc => eqMatch (.oid hex) (doc.get? "_id"))
              db.tutors).2 }) := by
  simp [deleteTutor, hid, deleteOne, hf, compileFilter_id, Db.log]

/-! ## C1: the auth gate -/

/-- C1, counterexample: a `token` cookie that is present with the empty string as value
cannot be verified, yet `POST /bokedItem` and `GET /bokedItem` answer 401, not 403. -/
theorem empty_token_cookie_answers_401 :
    (mkRequest [("token", .str "")] [] [] "").cookies.get? "token" = some (.str "") ∧
    jwtVerify (.str "") sampleEnv.ACCESS_TOKEN_SECRET sampleEnv.now = .error "jwt malformed" ∧
    (postBokedItem sampleEnv (mkRequest [("token", .str "")] [] [] "") sampleDb).1 =
      .sent ⟨401, messageBody "No token, unauthorized", []⟩ ∧
    (getBokedItem sampleEnv (mkRequest [("token", .str "")] [] [] "") sampleDb).1 =
      .sent ⟨401, messageBody "No token, unauthorized", []⟩ := by
  refine ⟨by decide, rfl, by decide, by decide⟩

/-- C1, amended: `POST /bokedItem` and `GET /bokedItem` are their handlers behind
`verifyToken`.  For every downstream handler: if the `token` cookie is absent or falsy (the
empty string) the response is 401; if it is truthy but verification fails the response is
403; in both cases the outcome does not depend on the handler and the database, store-call
log included, is unchanged.  The handler is invoked if and only if the cookie is truthy
and verifies, and it then receives the request with `user` set to the decoded claim. -/
theorem auth_gate_contract (h : Handler) (E : Env) (req : Request) (db : Db) :
    postBokedItem = guarded insertBoked ∧ getBokedItem = guarded listBoked ∧
    (req.cookies.get? "token" = none → (req.cookies.prop "token").truthy = false) ∧
    ((req.cookies.prop "token").truthy = false →
      guarded h E req db = (.sent ⟨401, messageBody "No token, unauthorized", []⟩, db)) ∧
    ((req.cookies.prop "token").truthy = true →
      ∀ e, jwtVerify (req.cookies.prop "token") E.ACCESS_TOKEN_SECRET E.now = .error e →
        guarded h E req db = (.sent ⟨403, messageBody "Invalid or expired token", []⟩, db)) ∧
    (∀ decoded, jwtVerify (req.cookies.prop "token") E.ACCESS_TOKEN_SECRET E.now = .ok decoded →
      guarded h E req db = h E { req with user := .obj decoded } db) ∧
    ((∃ req', verifyToken E req = .next req') ↔
      ((req.cookies.prop "token").truthy = true ∧
        ∃ decoded, jwtVerify (req.cookies.prop "token") E.ACCESS_TOKEN_SECRET E.now = .ok decoded)) := by
  refine ⟨rfl, rfl, ?_, ?_, ?_, ?_, ?_⟩
  · intro hn
    simp [JsFields.prop, hn, JsVal.truthy]
  · intro hf
    simp [guarded, verifyToken_falsy hf]
  · intro ht e he
    simp [guarded, verifyToken_error ht he]
  · intro decoded hd
    simp [guarded, verifyToken_ok hd]
  · constructor
    · rintro ⟨req', hr⟩
      cases ht : (req.cookies.prop "token").truthy with
      | false => rw [verifyToken_falsy ht] at hr; cases hr
      | true =>
        refine ⟨rfl, ?_⟩
        cases hv : jwtVerify (req.cookies.prop "token") E.ACCESS_TOKEN_SECRET E.now with
        | error e => rw [verifyToken_error ht hv] at hr; cases hr
        | ok decoded => exact ⟨decoded, rfl⟩
    · rintro ⟨_, decoded, hd⟩
      exact ⟨_, verifyToken_ok hd⟩

/-- C1, witness: the three branches of the gate on a request without cookie, with a token
signed under another secret, and with the token issued by the login route. -/
theorem auth_gate_contract_witness :
    guarded insertBoked sampleEnv (mkRequest [] [] [] "") sampleDb =
      (.sent ⟨401, messageBody "No token, unauthorized", []⟩, sampleDb) ∧
    guarded insertBoked sampleEnv (mkRequest [("token", forgedToken)] [] [] "") sampleDb =
      (.sent ⟨403, messageBody "Invalid or expired token", []⟩, sampleDb) ∧
    guarded insertBoked sampleEnv (mkRequest [("token", sampleToken)] [] [] "") sampleDb =
      insertBoked sampleEnv
        { mkRequest [("token", sampleToken)] [] [] "" with user := .obj sampleClaim } sampleDb :=
  ⟨(auth_gate_contract insertBoked sampleEnv (mkRequest [] [] [] "") sampleDb).2.2.2.1
      (by decide),
   (auth_gate_contract insertBoked sampleEnv (mkRequest [("token", forgedToken)] [] [] "")
      sampleDb).2.2.2.2.1 (by decide) "invalid signature" rfl,
   (auth_gate_contract insertBoked sampleEnv (mkRequest [("token", sampleToken)] [] [] "")
      sampleDb).2.2.2.2.2.1 sampleClaim rfl⟩

/-! ## C4: malformed identifiers -/

/-- C4: for an identifier string that is not well-formed, `GET /tutors/:id`,
`PUT /tutors/:id` and `DELETE /tutors/:id` each answer 400 and leave the database as it
was, the log of store calls included: no `findOne`, `updateOne` or `deleteOne` is
issued. -/
theorem malformed_id_rejected (E : Env) (req : Request) (db : Db)
    (h : E.objectId req.id = none) :
    getTutorById E req db = (.sent ⟨400, errorBody "Invalid ID format", []⟩, db) ∧
    putTutor E req db = (.sent ⟨400, errorBody "Invalid ID format", []⟩, db) ∧
    deleteTutor E req db = (.sent ⟨400, messageBody "Invalid ID format", []⟩, db) ∧
    (getTutorById E req db).2.calls = db.calls ∧ (putTutor E req db).2.calls = db.calls ∧
    (deleteTutor E req db).2.calls = db.calls := by
  simp [getTutorById, putTutor, deleteTutor, h]

/-- C4, witness: the identifier `not-an-id` on the sample database. -/
theorem malformed_id_rejected_witness :
    getTutorById sampleEnv (mkRequest [] [] [] "not-an-id") sampleDb =
      (.sent ⟨400, errorBody "Invalid ID format", []⟩, sampleDb) ∧
    putTutor sampleEnv (mkRequest [] [] [] "not-an-id") sampleDb =
      (.sent ⟨400, errorBody "Invalid ID format", []⟩, sampleDb) ∧
    deleteTutor sampleEnv (mkRequest [] [] [] "not-an-id") sampleDb =
      (.sent ⟨400, messageBody "Invalid ID format", []⟩, sampleDb) ∧
    (getTutorById sampleEnv (mkRequest [] [] [] "not-an-id") sampleDb).2.calls = [] ∧
    (putTutor sampleEnv (mkRequest [] [] [] "not-an-id") sampleDb).2.calls = [] ∧
    (deleteTutor sampleEnv (mkRequest [] [] [] "not-an-id") sampleDb).2.calls = [] :=
  malformed_id_rejected sampleEnv (mkRequest [] [] [] "not-an-id") sampleDb (by decide)

/-! ## C6: login -/

/-- C6, counterexample: a body whose `email` is present but is the empty string is answered
400 and no cookie is set. -/
theorem empty_email_login_answers_400 :
    (mkRequest [] [("email", .str "")] [] "").body.get? "email" = some (.str "") ∧
    login sampleEnv (mkRequest [] [("email", .str "")] [] "") sampleDb =
      (.sent ⟨400, messageBody "Email is required", []⟩, sampleDb) := by
  refine ⟨by decide, by decide⟩

/-- C6, amended: if the `email` of the body is missing or falsy (`null`, `false`, `0`, the
empty string) the response is 400 and no cookie is set; if it is truthy, and a non-empty
signing secret is configured, the response is 200 and sets exactly one cookie, named
`token`, whose verification under the same secret, at any time before the expiry, yields
a claim whose `email` is that of the body. -/
theorem login_contract (E : Env) (req : Request) (db : Db) :
    (req.body.get? "email" = none → (req.body.prop "email").truthy = false) ∧
    ((req.body.prop "email").truthy = false →
      login E req db = (.sent ⟨400, messageBody "Email is required", []⟩, db)) ∧
    (∀ key, (req.body.prop "email").truthy = true → E.ACCESS_TOKEN_SECRET = some key →
      key ≠ "" →
      ∃ token body opts,
        login E req db = (.sent ⟨200, body, [.set "token" token opts]⟩, db) ∧
        ∀ u, u < E.now + fiveHours →
          ∃ decoded, jwtVerify token (some key) u = .ok decoded ∧
            decoded.get? "email" = some (req.body.prop "email")) := by
  refine ⟨?_, ?_, ?_⟩
  · intro hn
    simp [JsFields.prop, hn, JsVal.truthy]
  · intro hf
    simp [login, hf]
  · intro key ht hs hk
    refine ⟨_, _, _, login_truthy E req db key ht hs hk, ?_⟩
    · intro u hu
      refine ⟨_, ?_, claim_email (req.body.prop "email") E.now fiveHours⟩
      rw [jwtVerify_signed _ key hk, if_neg (Nat.not_le.mpr hu)]

/-- C6, witness: login of `x@example.com` in the sample environment; the cookie verifies
one second before the expiry. -/
theorem login_contract_witness :
    ∃ token body opts,
      login sampleEnv (mkRequest [] [("email", .str "x@example.com")] [] "") sampleDb =
        (.sent ⟨200, body, [.set "token" token opts]⟩, sampleDb) ∧
      ∀ u, u < sampleEnv.now + fiveHours →
        ∃ decoded, jwtVerify token (some "s3cret") u = .ok decoded ∧
          decoded.get? "email" =
            some ((mkRequest [] [("email", .str "x@example.com")] [] "").body.prop "email") :=
  (login_contract sampleEnv (mkRequest [] [("email", .str "x@example.com")] [] "")
    sampleDb).2.2 "s3cret" (by decide) rfl (by decide)

/-! ## C7: token round trip -/

/-- C7: for every claim `{email}`, every non-empty signing secret and every issuance time
`t` (in seconds), the token issued at `t` verifies at every time before `t + 5 h`, giving
the claim (its `email`, together with `iat = t` and `exp = t + 18000`), and fails at
every time from `t + 5 h` on; the token is determined by the claim, the secret and the
clock. -/
theorem token_round_trip (email : JsVal) (key : String) (hk : key ≠ "") (t : Nat) :
    ∃ token, jwtSign (.ofList [("email", email)]) (some key) fiveHours t = .ok token ∧
      (∀ u, u < t + 18000 →
        jwtVerify token (some key) u =
            .ok (.ofList [("email", email), ("iat", .nat t), ("exp", .nat (t + 18000))]) ∧
          (JsFields.ofList [("email", email), ("iat", .nat t),
            ("exp", .nat (t + 18000))]).get? "email" = some email) ∧
      (∀ u, t + 18000 ≤ u → jwtVerify token (some key) u = .error "jwt expired") ∧
      (∀ token', jwtSign (.ofList [("email", email)]) (some key) fiveHours t = .ok token' →
        token' = token) := by
  have hs : jwtSign (.ofList [("email", email)]) (some key) fiveHours t =
      .ok (.jwt key (((JsFields.ofList [("email", email)]).set "iat" (.nat t)).set "exp"
        (.nat (t + 18000)))) := by
    simp [jwtSign, hk, fiveHours]
  refine ⟨_, hs, ?_, ?_, ?_⟩
  · intro u hu
    rw [jwtVerify_signed _ key hk, if_neg (Nat.not_le.mpr hu)]
    simp [JsFields.ofList, JsFields.set, JsFields.get?]
  · intro u hu
    rw [jwtVerify_signed _ key hk, if_pos hu]
  · intro token' h'
    rw [hs] at h'
    cases h'
    rfl

/-- C7, witness: the claim `x@example.com` signed with `s3cret` at time 1000. -/
theorem token_round_trip_witness :
    ∃ token, jwtSign (.ofList [("email", .str "x@example.com")]) (some "s3cret") fiveHours 1000 =
        .ok token ∧
      (∀ u, u < 1000 + 18000 →
        jwtVerify token (some "s3cret") u =
            .ok (.ofList [("email", .str "x@example.com"), ("iat", .nat 1000),
              ("exp", .nat (1000 + 18000))]) ∧
          (JsFields.ofList [("email", .str "x@example.com"), ("iat", .nat 1000),
            ("exp", .nat (1000 + 18000))]).get? "email" = some (.str "x@example.com")) ∧
      (∀ u, 1000 + 18000 ≤ u → jwtVerify token (some "s3cret") u = .error "jwt expired") ∧
      (∀ token', jwtSign (.ofList [("email", .str "x@example.com")]) (some "s3cret") fiveHours
          1000 = .ok token' → token' = token) :=
  token_round_trip (.str "x@example.com") "s3cret" (by decide) 1000

/-! ## C9: cookie attributes -/

/-- C9: for every value of `NODE_ENV` there is one set of cookie attributes, HTTP-only,
secure with `SameSite=None` exactly in production and non-secure with `SameSite=Strict`
otherwise, such that every cookie effect of a `POST /login` response sets the cookie
`token` with these attributes (and a successful login has exactly one such effect), and
`POST /logout` answers 200 and clears the cookie `token` with the same attributes. -/
theorem cookie_contract (E : Env) (req : Request) (db : Db) :
    ∃ opts : CookieOptions,
      opts.httpOnly = true ∧
      (E.NODE_ENV = some "production" → opts.secure = true ∧ opts.sameSite = "none") ∧
      (E.NODE_ENV ≠ some "production" → opts.secure = false ∧ opts.sameSite = "strict") ∧
      (∀ r, (login E req db).1 = .sent r →
        (r.status = 400 ∧ r.cookies = []) ∨
          (r.status = 200 ∧ ∃ token, r.cookies = [.set "token" token opts])) ∧
      (∀ key, (req.body.prop "email").truthy = true → E.ACCESS_TOKEN_SECRET = some key →
        key ≠ "" → ∃ r token, (login E req db).1 = .sent r ∧ r.status = 200 ∧
          r.cookies = [.set "token" token opts]) ∧
      ∃ body, logout E req db = (.sent ⟨200, body, [.clear "token" opts]⟩, db) := by
  refine ⟨{ httpOnly := true
            secure := decide (E.NODE_ENV = some "production")
            sameSite := if E.NODE_ENV = some "production" then "none" else "strict" },
    rfl, ?_, ?_, ?_, ?_, ⟨_, rfl⟩⟩
  · intro h
    simp [h]
  · intro h
    simp [h]
  · intro r hr
    simp only [login] at hr
    split at hr
    · left
      cases hr
      exact ⟨rfl, rfl⟩
    · split at hr
      · cases hr
      · right
        cases hr
        exact ⟨rfl, _, rfl⟩
  · intro key ht hs hk
    rw [login_truthy E req db key ht hs hk]
    exact ⟨_, _, rfl, rfl, rfl⟩

/-- C9, witness: in production the login cookie is secure with `SameSite=None`, and
logout clears it with the same attributes. -/
theorem cookie_contract_witness :
    ∃ opts : CookieOptions,
      opts.httpOnly = true ∧
      (productionEnv.NODE_ENV = some "production" → opts.secure = true ∧ opts.sameSite = "none") ∧
      (productionEnv.NODE_ENV ≠ some "production" →
        opts.secure = false ∧ opts.sameSite = "strict") ∧
      (∀ r, (login productionEnv (mkRequest [] [("email", .str "x@example.com")] [] "")
          sampleDb).1 = .sent r →
        (r.status = 400 ∧ r.cookies = []) ∨
          (r.status = 200 ∧ ∃ token, r.cookies = [.set "token" token opts])) ∧
      (∀ key, ((mkRequest [] [("email", .str "x@example.com")] [] "").body.prop "email").truthy
          = true → productionEnv.ACCESS_TOKEN_SECRET = some key →
        key ≠ "" → ∃ r token,
          (login productionEnv (mkRequest [] [("email", .str "x@example.com")] [] "")
            sampleDb).1 = .sent r ∧ r.status = 200 ∧
          r.cookies = [.set "token" token opts]) ∧
      ∃ body, logout productionEnv (mkRequest [] [("email", .str "x@example.com")] [] "")
          sampleDb = (.sent ⟨200, body, [.clear "token" opts]⟩, sampleDb) :=
  cookie_contract productionEnv (mkRequest [] [("email", .str "x@example.com")] [] "") sampleDb

/-! ## C10: the update document -/

/-- C10: the `$set` document built by `PUT /tutors/:id`, which is the one the route passes
to `updateOne`, always assigns the five keys `image`, `language`, `price`, `description`
and `reviewCount`.  The first four receive the value of the body verbatim, hence
`undefined` when the body omits them; `reviewCount` receives `0` when the value of the body
is falsy (absent, `0`, `null`, the empty string, `false`, `NaN`) and that value verbatim
otherwise.  Applied to a stored document, each of the five keys is overwritten (an
`undefined` value is stored as `null`), whatever the document held before. -/
theorem update_document_contract (body : JsFields) :
    (updateDoc body).keys = ["image", "language", "price", "description", "reviewCount"] ∧
    (∀ k ∈ ["image", "language", "price", "description"],
      (updateDoc body).get? k = some (body.prop k) ∧
        (body.get? k = none → (updateDoc body).get? k = some .undefined)) ∧
    ((body.prop "reviewCount").truthy = false →
      (updateDoc body).get? "reviewCount" = some (.num (.fin 0))) ∧
    ((body.prop "reviewCount").truthy = true →
      (updateDoc body).get? "reviewCount" = some (body.prop "reviewCount")) ∧
    (∀ v : JsVal, v.truthy = false ↔
      v = .undefined ∨ v = .null ∨ v = .bool false ∨ v = .num (.fin 0) ∨ v = .num .nan ∨
        v = .str "") ∧
    (∀ q : ℚ, q ≠ 0 → (JsVal.num (.fin q)).truthy = true) ∧
    (∀ (doc : JsFields), ∀ k ∈ ["image", "language", "price", "description", "reviewCount"],
      (applySet doc (updateDoc body)).get? k = some (toBson ((updateDoc body).prop k))) ∧
    (∀ (doc : JsFields), ∀ k ∈ ["image", "language", "price", "description"],
      body.get? k = none → (applySet doc (updateDoc body)).get? k = some .null) ∧
    (∀ (E : Env) (req : Request) (db : Db) (hex : String),
      req.body = body → E.objectId req.id = some hex →
        (putTutor E req db).2.calls =
          db.calls ++ [.updateOne "tutors" ⟨"_id", .oid hex⟩ (updateDoc body)]) := by
  refine ⟨updateDoc_keys body, ?_, ?_, ?_, falsy_iff, ?_, ?_, ?_, ?_⟩
  · intro k hk
    simp only [List.mem_cons, List.mem_singleton, List.not_mem_nil, or_false] at hk
    rcases hk with h | h | h | h <;> subst h <;>
      refine ⟨by simp [updateDoc, JsFields.ofList, JsFields.get?, JsFields.prop], fun hn => ?_⟩ <;>
      simp [updateDoc, JsFields.ofList, JsFields.get?, JsFields.prop, hn]
  · intro h
    simp [updateDoc, JsFields.ofList, JsFields.get?, jsOr, h, JsVal.nat]
  · intro h
    simp [updateDoc, JsFields.ofList, JsFields.get?, jsOr, h]
  · intro q hq
    simp [JsVal.truthy, JsNum.truthy, hq]
  · intro doc k hk
    exact applySet_updateDoc_get? doc body k hk
  · intro doc k hk hn
    have hk' : k ∈ ["image", "language", "price", "description", "reviewCount"] := by
      simp only [List.mem_cons, List.mem_singleton, List.not_mem_nil, or_false] at hk ⊢
      tauto
    rw [applySet_updateDoc_get? doc body k hk']
    simp only [List.mem_cons, List.mem_singleton, List.not_mem_nil, or_false] at hk
    rcases hk with h | h | h | h <;> subst h <;>
      simp [updateDoc, JsFields.ofList, JsFields.get?, JsFields.prop, hn, toBson]
  · intro E req db hex hb hid
    subst hb
    simp only [putTutor, hid]
    split
    · split <;> simp [Db.log]
    · simp [Db.log]

/-- C10, witness: a body without `image` whose `reviewCount` is `0`, and one whose
`reviewCount` is `-3`; the stored `image` of the second sample tutor is overwritten. -/
theorem update_document_contract_witness :
    (updateDoc (.ofList [("price", .nat 7), ("reviewCount", .num (.fin 0))])).get? "reviewCount" =
      some (.num (.fin 0)) ∧
    (updateDoc (.ofList [("reviewCount", .num (.fin (-3)))])).get? "reviewCount" =
      some ((JsFields.ofList [("reviewCount", .num (.fin (-3)))]).prop "reviewCount") ∧
    (updateDoc (.ofList [("price", .nat 7)])).get? "image" = some .undefined ∧
    (applySet tutorB (updateDoc (.ofList [("price", .nat 7)]))).get? "image" = some .null ∧
    (putTutor sampleEnv (mkRequest [] [("price", .nat 7)] [] idA) sampleDb).2.calls =
      sampleDb.calls ++
        [.updateOne "tutors" ⟨"_id", .oid idA⟩ (updateDoc (.ofList [("price", .nat 7)]))] :=
  ⟨(update_document_contract (.ofList [("price", .nat 7), ("reviewCount", .num (.fin 0))])).2.2.1
      (by decide),
   (update_document_contract (.ofList [("reviewCount", .num (.fin (-3)))])).2.2.2.1 (by decide),
   ((update_document_contract (.ofList [("price", .nat 7)])).2.1 "image" (by simp)).2
      (by decide),
   (update_document_contract (.ofList [("price", .nat 7)])).2.2.2.2.2.2.2.1 tutorB "image"
      (by simp) (by decide),
   (update_document_contract (.ofList [("price", .nat 7)])).2.2.2.2.2.2.2.2 sampleEnv
      (mkRequest [] [("price", .nat 7)] [] idA) sampleDb idA rfl (by decide)⟩

/-! ## C2: bookings by email -/

/-- C2, counterexample: with the session cookie of the login route, (a) an `email` query
parameter that is present but empty is answered 400; (b) the nested object produced by
`email[$ne]=x@example.com` is answered with a booking whose `email` is another string;
(c) the string `x@example.com` is answered with a booking whose `email` is an array
containing it. -/
theorem booked_by_email_counterexamples :
    ((mkRequest [("token", sampleToken)] [] [("email", .str "")] "").query.get? "email" =
        some (.str "") ∧
      (getBokedItem sampleEnv (mkRequest [("token", sampleToken)] [] [("email", .str "")] "")
        sampleDb).1 =
        .sent ⟨400, messageBody "Email query parameter is required.", []⟩) ∧
    ((getBokedItem sampleEnv
        (mkRequest [("token", sampleToken)] []
          [("email", .obj (.ofList [("$ne", .str "x@example.com")]))] "") sampleDb).1 =
        .sent ⟨200, docsBody [bookingY], []⟩ ∧
      bookingY.get? "email" = some (.str "y@example.com")) ∧
    ((getBokedItem sampleEnv
        (mkRequest [("token", sampleToken)] [] [("email", .str "x@example.com")] "")
        sampleDb).1 = .sent ⟨200, docsBody [bookingXs], []⟩ ∧
      bookingXs.get? "email" =
        some (.arr (.ofList [.str "x@example.com", .str "z@example.com"]))) := by
  refine ⟨⟨by decide, by decide⟩, ⟨by decide, by decide⟩, ⟨by decide, by decide⟩⟩

/-- C2, amended: for every state of the booking collection and every `GET /bokedItem`
request whose cookie verifies: if the `email` query parameter is missing or falsy (the empty
string) the response is 400 and the database, store-call log included, is unchanged;
if it is truthy and is not an operator expression (an object whose first key starts with
`$`), and the store call does not fail, one `find` is issued, the collections are
unchanged, the response is 200 and its body is exactly the sequence, in stored order, of
the booking documents whose `email` field equals the query value or is an array
containing it (the empty array when there is none). -/
theorem booked_by_email_contract (E : Env) (req : Request) (db : Db) (decoded : JsFields)
    (hv : jwtVerify (req.cookies.prop "token") E.ACCESS_TOKEN_SECRET E.now = .ok decoded) :
    (req.query.get? "email" = none → (req.query.prop "email").truthy = false) ∧
    ((req.query.prop "email").truthy = false →
      getBokedItem E req db =
        (.sent ⟨400, messageBody "Email query parameter is required.", []⟩, db)) ∧
    ((req.query.prop "email").truthy = true → isOperatorExpr (req.query.prop "email") = false →
      E.storeFault = none →
      getBokedItem E req db =
        (.sent ⟨200,
            docsBody (db.bokedItem.filter
              (fun d => eqMatch (req.query.prop "email") (d.get? "email"))), []⟩,
          db.log (.find "bokedItem" ⟨"email", req.query.prop "email"⟩)) ∧
      (∀ d : JsFields, eqMatch (req.query.prop "email") (d.get? "email") = true ↔
        d.get? "email" = some (req.query.prop "email") ∨
          ∃ xs, d.get? "email" = some (.arr xs) ∧ xs.contains (req.query.prop "email") = true) ∧
      ((∀ d ∈ db.bokedItem, eqMatch (req.query.prop "email") (d.get? "email") = false) →
        (getBokedItem E req db).1 = .sent ⟨200, .arr .nil, []⟩)) := by
  have hg : getBokedItem E req db = listBoked E { req with user := .obj decoded } db := by
    simp [getBokedItem, guarded, verifyToken_ok hv]
  refine ⟨?_, ?_, ?_⟩
  · intro hn
    simp [JsFields.prop, hn, JsVal.truthy]
  · intro hf
    rw [hg]
    exact listBoked_falsy E _ db hf
  · intro ht hop hf
    have hne : req.query.prop "email" ≠ .null := by
      intro h
      rw [h] at ht
      simp [JsVal.truthy] at ht
    have hl := listBoked_equality E { req with user := .obj decoded } db ht hop hf
    refine ⟨by rw [hg]; exact hl, fun d => eqMatch_iff hne _, ?_⟩
    intro hnone
    rw [hg, hl]
    have : db.bokedItem.filter (fun d => eqMatch (req.query.prop "email") (d.get? "email")) = [] := by
      rw [List.filter_eq_nil_iff]
      intro d hd
      simp [hnone d hd]
    simp [this, docsBody, JsList.ofList]

/-- C2, witness: the sample bookings queried for `y@example.com`, and a request without
`email`. -/
theorem booked_by_email_contract_witness :
    getBokedItem sampleEnv (mkRequest [("token", sampleToken)] [] [] "") sampleDb =
      (.sent ⟨400, messageBody "Email query parameter is required.", []⟩, sampleDb) ∧
    getBokedItem sampleEnv
        (mkRequest [("token", sampleToken)] [] [("email", .str "y@example.com")] "") sampleDb =
      (.sent ⟨200,
          docsBody (sampleDb.bokedItem.filter
            (fun d => eqMatch
              ((mkRequest [("token", sampleToken)] [] [("email", .str "y@example.com")]
                "").query.prop "email") (d.get? "email"))), []⟩,
        sampleDb.log (.find "bokedItem"
          ⟨"email", (mkRequest [("token", sampleToken)] [] [("email", .str "y@example.com")]
            "").query.prop "email"⟩)) :=
  ⟨(booked_by_email_contract sampleEnv (mkRequest [("token", sampleToken)] [] [] "") sampleDb
      sampleClaim rfl).2.1 (by decide),
   ((booked_by_email_contract sampleEnv
      (mkRequest [("token", sampleToken)] [] [("email", .str "y@example.com")] "") sampleDb
      sampleClaim rfl).2.2 (by decide) (by decide) rfl).1⟩

/-! ## C3: updating a tutor -/

/-- C3: for every state of the tutor collection (satisfying the invariant of the store),
every well-formed identifier and every body, when the store call does not fail:
`PUT /tutors/:id` answers 404 and leaves the collection unchanged when no document has that
`_id`; when a document has it, the answer is 200, the documents before and after it are
unchanged, and the document itself keeps every field other than `image`, `language`,
`price`, `description` and `reviewCount` (in particular `_id` and `email`), the five
fields receive the values of the update document, and `reviewCount` is `0` when the body
omits it. -/
theorem update_tutor_contract (E : Env) (req : Request) (db : Db) (hex : String)
    (hid : E.objectId req.id = some hex) (hf : E.storeFault = none)
    (hinv : StoreInv db.tutors) :
    ((∀ d ∈ db.tutors, d.get? "_id" ≠ some (.oid hex)) →
      putTutor E req db =
        (.sent ⟨404, messageBody "Tutor not found", []⟩,
          db.log (.updateOne "tutors" ⟨"_id", .oid hex⟩ (updateDoc req.body))) ∧
      (putTutor E req db).2.tutors = db.tutors) ∧
    (∀ d ∈ db.tutors, d.get? "_id" = some (.oid hex) →
      ∃ pre post d' modified,
        db.tutors = pre ++ d :: post ∧
        putTutor E req db =
          (.sent ⟨200,
              .obj (.ofList [("success", .bool true), ("result", updateResult 1 modified)]),
              []⟩,
            { db.log (.updateOne "tutors" ⟨"_id", .oid hex⟩ (updateDoc req.body)) with
              tutors := pre ++ d' :: post }) ∧
        (∀ k, k ∉ ["image", "language", "price", "description", "reviewCount"] →
          d'.get? k = d.get? k) ∧
        d'.get? "_id" = some (.oid hex) ∧ d'.get? "email" = d.get? "email" ∧
        (∀ k ∈ ["image", "language", "price", "description", "reviewCount"],
          d'.get? k = some (toBson ((updateDoc req.body).prop k))) ∧
        (req.body.get? "reviewCount" = none → d'.get? "reviewCount" = some (.num (.fin 0)))) := by
  constructor
  · intro hno
    have hnone : ∀ d ∈ db.tutors,
        (fun doc : JsFields => eqMatch (.oid hex) (doc.get? "_id")) d = false := by
      intro d hd
      simp [idMatch_of_hasKey (hinv.1 d hd) hex, hno d hd]
    rw [putTutor_eq E req db hex hid hf, updateFirst_of_none _ _ _ hnone]
    simp [Db.log]
  · intro d hd hk
    obtain ⟨pre, post, hsplit, hpre, _⟩ := split_at_key hinv hd
    have hpd : (fun doc : JsFields => eqMatch (.oid hex) (doc.get? "_id")) d = true := by
      simp [hk, eqMatch]
    have hpp : ∀ x ∈ pre,
        (fun doc : JsFields => eqMatch (.oid hex) (doc.get? "_id")) x = false := by
      intro x hx
      have hxm : x ∈ db.tutors := by rw [hsplit]; exact List.mem_append_left _ hx
      have := hpre x hx
      rw [hk] at this
      simp [idMatch_of_hasKey (hinv.1 x hxm) hex, this]
    have hother : ∀ k, k ∉ ["image", "language", "price", "description", "reviewCount"] →
        (applySet d (updateDoc req.body)).get? k = d.get? k := by
      intro k hk'
      exact applySet_get?_of_not_mem _ d k (by rw [updateDoc_keys]; exact hk')
    refine ⟨pre, post, applySet d (updateDoc req.body),
      (if applySet d (updateDoc req.body) = d then 0 else 1), hsplit, ?_, hother, ?_, ?_, ?_, ?_⟩
    · rw [putTutor_eq E req db hex hid hf, hsplit, updateFirst_of_split _ _ d post hpd pre hpp]
      simp
    · rw [hother "_id" (by decide), hk]
    · exact hother "email" (by decide)
    · intro k hk'
      exact applySet_updateDoc_get? d req.body k hk'
    · intro hn
      rw [applySet_updateDoc_get? d req.body "reviewCount" (by decide)]
      simp [updateDoc, JsFields.ofList, JsFields.prop, JsFields.get?, hn, jsOr, JsVal.truthy,
        JsVal.nat, toBson]

/-- The sample tutors satisfy the invariant of the store. -/
theorem sampleDb_inv : StoreInv sampleDb.tutors :=
  ⟨by decide, by decide⟩

/-- C3, witness: updating the first sample tutor with a body that only carries `price`,
and an identifier that no sample tutor has. -/
theorem update_tutor_contract_witness :
    (putTutor sampleEnv (mkRequest [] [("price", .nat 7)] [] "64b7f3c2a1d4e5f607182900")
        sampleDb =
      (.sent ⟨404, messageBody "Tutor not found", []⟩,
        sampleDb.log (.updateOne "tutors" ⟨"_id", .oid "64b7f3c2a1d4e5f607182900"⟩
          (updateDoc (mkRequest [] [("price", .nat 7)] [] "64b7f3c2a1d4e5f607182900").body))) ∧
      (putTutor sampleEnv (mkRequest [] [("price", .nat 7)] [] "64b7f3c2a1d4e5f607182900")
        sampleDb).2.tutors = sampleDb.tutors) ∧
    ∃ pre post d' modified,
      sampleDb.tutors = pre ++ tutorA :: post ∧
      putTutor sampleEnv (mkRequest [] [("price", .nat 7)] [] idA) sampleDb =
        (.sent ⟨200,
            .obj (.ofList [("success", .bool true), ("result", updateResult 1 modified)]),
            []⟩,
          { sampleDb.log (.updateOne "tutors" ⟨"_id", .oid idA⟩
              (updateDoc (mkRequest [] [("price", .nat 7)] [] idA).body)) with
            tutors := pre ++ d' :: post }) ∧
      (∀ k, k ∉ ["image", "language", "price", "description", "reviewCount"] →
        d'.get? k = tutorA.get? k) ∧
      d'.get? "_id" = some (.oid idA) ∧ d'.get? "email" = tutorA.get? "email" ∧
      (∀ k ∈ ["image", "language", "price", "description", "reviewCount"],
        d'.get? k =
          some (toBson ((updateDoc (mkRequest [] [("price", .nat 7)] [] idA).body).prop k))) ∧
      ((mkRequest [] [("price", .nat 7)] [] idA).body.get? "reviewCount" = none →
        d'.get? "reviewCount" = some (.num (.fin 0))) :=
  ⟨(update_tutor_contract sampleEnv (mkRequest [] [("price", .nat 7)] []
      "64b7f3c2a1d4e5f607182900") sampleDb "64b7f3c2a1d4e5f607182900" (by decide) rfl
      sampleDb_inv).1 (by decide),
   (update_tutor_contract sampleEnv (mkRequest [] [("price", .nat 7)] [] idA) sampleDb idA
      (by decide) rfl sampleDb_inv).2 tutorA (by decide) (by decide)⟩

/-! ## C5: deleting twice -/

/-- C5: for every state of the tutor collection (satisfying the invariant of the store)
that contains a document `d` with the well-formed identifier of the request, when the
store calls do not fail: the first `DELETE /tutors/:id` answers 200 with `deletedCount` 1
and removes `d` and no other document; a second one answers 404 and leaves both
collections as the first one left them. -/
theorem delete_twice_contract (E₁ E₂ : Env) (req : Request) (db : Db) (hex : String)
    (d : JsFields)
    (hid₁ : E₁.objectId req.id = some hex) (hid₂ : E₂.objectId req.id = some hex)
    (hf₁ : E₁.storeFault = none) (hf₂ : E₂.storeFault = none)
    (hinv : StoreInv db.tutors) (hd : d ∈ db.tutors) (hk : d.get? "_id" = some (.oid hex)) :
    ∃ pre post,
      db.tutors = pre ++ d :: post ∧
      deleteTutor E₁ req db =
        (.sent ⟨200, .obj (.ofList [("success", .bool true), ("deletedCount", .nat 1)]), []⟩,
          { db.log (.deleteOne "tutors" ⟨"_id", .oid hex⟩) with tutors := pre ++ post }) ∧
      (∀ x ∈ pre ++ post, x.get? "_id" ≠ some (.oid hex)) ∧
      (deleteTutor E₂ req (deleteTutor E₁ req db).2).1 =
        .sent ⟨404, messageBody "Tutor not found", []⟩ ∧
      (deleteTutor E₂ req (deleteTutor E₁ req db).2).2.tutors =
        (deleteTutor E₁ req db).2.tutors ∧
      (deleteTutor E₂ req (deleteTutor E₁ req db).2).2.bokedItem = db.bokedItem := by
  obtain ⟨pre, post, hsplit, hpre, hpost⟩ := split_at_key hinv hd
  have hpd : (fun doc : JsFields => eqMatch (.oid hex) (doc.get? "_id")) d = true := by
    simp [hk, eqMatch]
  have hrest : ∀ x ∈ pre ++ post, x.get? "_id" ≠ some (.oid hex) := by
    intro x hx
    rw [← hk]
    rcases List.mem_append.mp hx with h | h
    · exact hpre x h
    · exact hpost x h
  have hmem : ∀ x ∈ pre ++ post, x ∈ db.tutors := by
    intro x hx
    rw [hsplit]
    rcases List.mem_append.mp hx with h | h
    · exact List.mem_append_left _ h
    · exact List.mem_append_right _ (List.mem_cons_of_mem _ h)
  have hpp : ∀ x ∈ pre,
      (fun doc : JsFields => eqMatch (.oid hex) (doc.get? "_id")) x = false := by
    intro x hx
    have hx' : x ∈ pre ++ post := List.mem_append_left _ hx
    simp [idMatch_of_hasKey (hinv.1 x (hmem x hx')) hex, hrest x hx']
  have hall : ∀ x ∈ pre ++ post,
      (fun doc : JsFields => eqMatch (.oid hex) (doc.get? "_id")) x = false := by
    intro x hx
    simp [idMatch_of_hasKey (hinv.1 x (hmem x hx)) hex, hrest x hx]
  have h1 : deleteTutor E₁ req db =
      (.sent ⟨200, .obj (.ofList [("success", .bool true), ("deletedCount", .nat 1)]), []⟩,
        { db.log (.deleteOne "tutors" ⟨"_id", .oid hex⟩) with tutors := pre ++ post }) := by
    rw [deleteTutor_eq E₁ req db hex hid₁ hf₁, hsplit, deleteFirst_of_split _ d post hpd pre hpp]
    simp
  refine ⟨pre, post, hsplit, h1, hrest, ?_, ?_, ?_⟩
  all_goals
    rw [h1, deleteTutor_eq E₂ req _ hex hid₂ hf₂]
    simp only [Db.log]
    rw [deleteFirst_of_none _ _ hall]
    simp

/-- C5, witness: deleting the first sample tutor twice. -/
theorem delete_twice_contract_witness :
    ∃ pre post,
      sampleDb.tutors = pre ++ tutorA :: post ∧
      deleteTutor sampleEnv (mkRequest [] [] [] idA) sampleDb =
        (.sent ⟨200, .obj (.ofList [("success", .bool true), ("deletedCount", .nat 1)]), []⟩,
          { sampleDb.log (.deleteOne "tutors" ⟨"_id", .oid idA⟩) with tutors := pre ++ post }) ∧
      (∀ x ∈ pre ++ post, x.get? "_id" ≠ some (.oid idA)) ∧
      (deleteTutor sampleEnv (mkRequest [] [] [] idA)
        (deleteTutor sampleEnv (mkRequest [] [] [] idA) sampleDb).2).1 =
        .sent ⟨404, messageBody "Tutor not found", []⟩ ∧
      (deleteTutor sampleEnv (mkRequest [] [] [] idA)
        (deleteTutor sampleEnv (mkRequest [] [] [] idA) sampleDb).2).2.tutors =
        (deleteTutor sampleEnv (mkRequest [] [] [] idA) sampleDb).2.tutors ∧
      (deleteTutor sampleEnv (mkRequest [] [] [] idA)
        (deleteTutor sampleEnv (mkRequest [] [] [] idA) sampleDb).2).2.bokedItem =
        sampleDb.bokedItem :=
  delete_twice_contract sampleEnv sampleEnv (mkRequest [] [] [] idA) sampleDb idA tutorA
    (by decide) (by decide) rfl rfl sampleDb_inv (by decide) (by decide)

/-! ## C8: store failures -/

/-- C8: what each handler does when its store call fails with the error `e`.  Only
`PUT /tutors/:id` and `GET /bokedItem` catch the failure and answer 500 with a JSON body
carrying `message` and `error`; in `POST /tutors`, `GET /tutors`, `GET /tutors/email`,
`GET /tutors/:id`, `DELETE /tutors/:id` and `POST /bokedItem` the failure is not caught:
the handler rejects with `e` and sends no response.  No collection changes. -/
theorem store_failure_outcomes (E : Env) (req : Request) (db : Db) (e : String)
    (hf : E.storeFault = some e) :
    (postTutors E req db).1 = .rejected e ∧
    (getTutors E req db).1 = .rejected e ∧
    (getTutorByEmail E req db).1 = .rejected e ∧
    (∀ hex, E.objectId req.id = some hex →
      (getTutorById E req db).1 = .rejected e ∧
      (deleteTutor E req db).1 = .rejected e ∧
      (putTutor E req db).1 =
        .sent ⟨500,
          .obj (.ofList [("error", .str "Internal Server Error"), ("message", .str e)]), []⟩ ∧
      hasMessageOrError
        (.obj (.ofList [("error", .str "Internal Server Error"), ("message", .str e)])) = true ∧
      (getTutorById E req db).2.tutors = db.tutors ∧ (deleteTutor E req db).2.tutors = db.tutors ∧
      (putTutor E req db).2.tutors = db.tutors) ∧
    (∀ decoded,
      jwtVerify (req.cookies.prop "token") E.ACCESS_TOKEN_SECRET E.now = .ok decoded →
      (postBokedItem E req db).1 = .rejected e ∧
      (postBokedItem E req db).2.bokedItem = db.bokedItem ∧
      ((req.query.prop "email").truthy = true →
        (getBokedItem E req db).1 =
          .sent ⟨500,
            .obj (.ofList [("message", .str "Failed to fetch booked items by email"),
              ("error", .str e)]), []⟩ ∧
        hasMessageOrError
          (.obj (.ofList [("message", .str "Failed to fetch booked items by email"),
            ("error", .str e)])) = true)) ∧
    (postTutors E req db).2.tutors = db.tutors := by
  refine ⟨?_, ?_, ?_, ?_, ?_, ?_⟩
  · simp [postTutors, insertOne, hf]
  · simp [getTutors, findEvery, hf]
  · simp [getTutorByEmail, findOne, hf]
  · intro hex hid
    refine ⟨?_, ?_, ?_, by simp [hasMessageOrError, JsFields.ofList, JsFields.get?], ?_, ?_, ?_⟩
    · simp [getTutorById, hid, findOne, hf]
    · simp [deleteTutor, hid, deleteOne, hf]
    · simp [putTutor, hid, updateOne, hf]
    · simp [getTutorById, hid, findOne, hf, Db.log]
    · simp [deleteTutor, hid, deleteOne, hf, Db.log]
    · simp [putTutor, hid, updateOne, hf, Db.log]
  · intro decoded hd
    refine ⟨?_, ?_, ?_⟩
    · simp [postBokedItem, guarded, verifyToken_ok hd, insertBoked, insertOne, hf]
    · simp [postBokedItem, guarded, verifyToken_ok hd, insertBoked, insertOne, hf, Db.log]
    · intro ht
      refine ⟨?_, by simp [hasMessageOrError, JsFields.ofList, JsFields.get?]⟩
      simp [getBokedItem, guarded, verifyToken_ok hd, listBoked, ht, findMany, hf]
  · simp [postTutors, insertOne, hf, Db.log]

/-- C8, witness: the store connection is lost; `POST /tutors` sends no response, while
`PUT /tutors/:id` answers 500. -/
theorem store_failure_outcomes_witness :
    (postTutors failingEnv (mkRequest [] [("email", .str "x@example.com")] [] idA) sampleDb).1 =
      .rejected "connection closed" ∧
    (putTutor failingEnv (mkRequest [] [("email", .str "x@example.com")] [] idA) sampleDb).1 =
      .sent ⟨500,
        .obj (.ofList [("error", .str "Internal Server Error"),
          ("message", .str "connection closed")]), []⟩ :=
  ⟨(store_failure_outcomes failingEnv (mkRequest [] [("email", .str "x@example.com")] [] idA)
      sampleDb "connection closed" rfl).1,
   ((store_failure_outcomes failingEnv (mkRequest [] [("email", .str "x@example.com")] [] idA)
      sampleDb "connection closed" rfl).2.2.2.1 idA (by decide)).2.2.1⟩

/-! ## The store invariant is preserved by every route

The hypothesis `StoreInv` of C3 and C5 holds of the empty collection and is kept by every
handler, whatever the request and the environment. -/

theorem storeInv_nil : StoreInv [] :=
  ⟨by simp, by simp⟩

theorem storeInv_congr {docs docs' : List JsFields}
    (h : docs'.map (fun d => d.get? "_id") = docs.map (fun d => d.get? "_id"))
    (hinv : StoreInv docs) : StoreInv docs' := by
  refine ⟨?_, h ▸ hinv.2⟩
  intro d hd
  have hm : d.get? "_id" ∈ docs.map (fun d => d.get? "_id") :=
    h ▸ List.mem_map_of_mem (fun d => d.get? "_id") hd
  obtain ⟨x, hx, hxe⟩ := List.mem_map.mp hm
  have hkx := hinv.1 x hx
  simp only [hasKey] at hkx ⊢
  rw [← hxe]
  exact hkx

theorem storeInv_sublist {docs docs' : List JsFields} (hs : docs'.Sublist docs)
    (hinv : StoreInv docs) : StoreInv docs' :=
  ⟨fun d hd => hinv.1 d (hs.subset hd), hinv.2.sublist (hs.map _)⟩

theorem deleteFirst_sublist (p : JsFields → Bool) :
    ∀ docs : List JsFields, (deleteFirst p docs).2.Sublist docs
  | [] => by simp [deleteFirst]
  | d :: ds => by
    by_cases hd : p d = true
    · simp [deleteFirst, hd]
    · have ih := deleteFirst_sublist p ds
      simp [deleteFirst, hd, ih]

theorem updateFirst_keys (p : JsFields → Bool) (s : JsFields) (hs : "_id" ∉ s.keys) :
    ∀ docs : List JsFields,
      (updateFirst p s docs).2.2.map (fun d => d.get? "_id") =
        docs.map (fun d => d.get? "_id")
  | [] => by simp [updateFirst]
  | d :: ds => by
    by_cases hd : p d = true
    · simp [updateFirst, hd, applySet_get?_of_not_mem s d "_id" hs]
    · have ih := updateFirst_keys p s hs ds
      simp [updateFirst, hd, ih]

theorem storeInv_append {docs : List JsFields} {stored : JsFields} (hinv : StoreInv docs)
    (hget : stored.get? "_id" = some (stored.prop "_id"))
    (harr : (stored.prop "_id").isArray = false)
    (hdup : (docs.any fun d => decide (d.get? "_id" = some (stored.prop "_id"))) = false) :
    StoreInv (docs ++ [stored]) := by
  refine ⟨?_, ?_⟩
  · intro d hd
    rcases List.mem_append.mp hd with hd | hd
    · exact hinv.1 d hd
    · simp only [List.mem_singleton] at hd
      subst hd
      simp [hasKey, hget, harr]
  · rw [List.map_append, List.map_singleton, hget]
    refine List.Nodup.append hinv.2 (List.nodup_singleton _) ?_
    intro o ho ho'
    rw [List.mem_singleton] at ho'
    subst ho'
    obtain ⟨x, hx, he⟩ := List.mem_map.mp ho
    have : (docs.any fun d => decide (d.get? "_id" = some (stored.prop "_id"))) = true := by
      simp only [List.any_eq_true, decide_eq_true_eq]
      exact ⟨x, hx, he⟩
    rw [hdup] at this
    cases this

theorem storeInv_insertOne {E : Env} {docs docs' : List JsFields} {doc : JsFields}
    {r : JsVal} (hinv : StoreInv docs) (h : insertOne E docs doc = .ok (r, docs')) :
    StoreInv docs' := by
  cases hf : E.storeFault with
  | some e => simp [insertOne, hf] at h
  | none =>
    by_cases hc : toBson (doc.prop "_id") = .null
    · simp only [insertOne, hf, hc, if_true] at h
      cases harr : ((doc.set "_id" (.oid E.freshId)).prop "_id").isArray with
      | true => simp [harr] at h
      | false =>
        cases hdup : (docs.any fun d =>
            decide (d.get? "_id" = some ((doc.set "_id" (.oid E.freshId)).prop "_id"))) with
        | true => simp [harr, hdup] at h
        | false =>
          simp only [harr, hdup, Bool.false_eq_true, if_false] at h
          injection h with h
          injection h with _ h
          subst h
          exact storeInv_append hinv (by simp [JsFields.prop, get?_set]) harr hdup
    · simp only [insertOne, hf, hc, if_false] at h
      cases harr : (doc.prop "_id").isArray with
      | true => simp [harr] at h
      | false =>
        cases hdup : (docs.any fun d => decide (d.get? "_id" = some (doc.prop "_id"))) with
        | true => simp [harr, hdup] at h
        | false =>
          simp only [harr, hdup, Bool.false_eq_true, if_false] at h
          injection h with h
          injection h with _ h
          subst h
          refine storeInv_append hinv ?_ harr hdup
          cases hg : doc.get? "_id" with
          | none => simp [JsFields.prop, hg, toBson] at hc
          | some v => simp [JsFields.prop, hg]

theorem storeInv_updateOne {E : Env} {docs docs' : List JsFields} {body : JsFields}
    {hex : String} {n : Nat} {r : JsVal} (hinv : StoreInv docs)
    (h : updateOne E docs ⟨"_id", .oid hex⟩ (updateDoc body) = .ok (n, r, docs')) :
    StoreInv docs' := by
  cases hf : E.storeFault with
  | some e => simp [updateOne, hf] at h
  | none =>
    simp only [updateOne, hf, compileFilter_id] at h
    injection h with h
    injection h with _ h
    injection h with _ h
    subst h
    exact storeInv_congr (updateFirst_keys _ _ (by rw [updateDoc_keys]; decide) docs) hinv

theorem storeInv_deleteOne {E : Env} {docs docs' : List JsFields} {q : Filter} {n : Nat}
    (hinv : StoreInv docs) (h : deleteOne E docs q = .ok (n, docs')) : StoreInv docs' := by
  cases hf : E.storeFault with
  | some e => simp [deleteOne, hf] at h
  | none =>
    simp only [deleteOne, hf] at h
    split at h
    · rename_i p _
      have hd : docs' = (deleteFirst p docs).2 := by
        simp only [Except.ok.injEq] at h
        rw [h]
      rw [hd]
      exact storeInv_sublist (deleteFirst_sublist _ docs) hinv
    · cases h

theorem handlers_preserve_storeInv (E : Env) (req : Request) (db : Db)
    (h1 : StoreInv db.tutors) (h2 : StoreInv db.bokedItem) :
    ∀ h ∈ [login, logout, postTutors, getTutors, getTutorByEmail, getTutorById, putTutor,
        deleteTutor, insertBoked, listBoked],
      StoreInv (h E req db).2.tutors ∧ StoreInv (h E req db).2.bokedItem := by
  intro h hh
  simp only [List.mem_cons, List.mem_singleton, List.not_mem_nil, or_false] at hh
  rcases hh with rfl | rfl | rfl | rfl | rfl | rfl | rfl | rfl | rfl | rfl
  · simp only [login]
    split
    · exact ⟨h1, h2⟩
    · split <;> exact ⟨h1, h2⟩
  · exact ⟨h1, h2⟩
  · simp only [postTutors, Db.log]
    split
    · exact ⟨h1, h2⟩
    · rename_i hi
      exact ⟨storeInv_insertOne h1 hi, h2⟩
  · simp only [getTutors, Db.log]
    split <;> exact ⟨h1, h2⟩
  · simp only [getTutorByEmail, Db.log]
    split <;> exact ⟨h1, h2⟩
  · simp only [getTutorById, Db.log]
    split
    · exact ⟨h1, h2⟩
    · split <;> exact ⟨h1, h2⟩
  · simp only [putTutor, Db.log]
    split
    · exact ⟨h1, h2⟩
    · split
      · rename_i hu
        split <;> exact ⟨storeInv_updateOne h1 hu, h2⟩
      · exact ⟨h1, h2⟩
  · simp only [deleteTutor, Db.log]
    split
    · exact ⟨h1, h2⟩
    · split
      · exact ⟨h1, h2⟩
      · rename_i hd
        split <;> exact ⟨storeInv_deleteOne h1 hd, h2⟩
  · simp only [insertBoked, Db.log]
    split
    · exact ⟨h1, h2⟩
    · rename_i hi
      exact ⟨h1, storeInv_insertOne h2 hi⟩
  · simp only [listBoked, Db.log]
    split
    · exact ⟨h1, h2⟩
    · split <;> exact ⟨h1, h2⟩

theorem guarded_preserves_storeInv (h : Handler) (E : Env) (req : Request) (db : Db)
    (hh : ∀ req', StoreInv (h E req' db).2.tutors ∧ StoreInv (h E req' db).2.bokedItem)
    (h1 : StoreInv db.tutors) (h2 : StoreInv db.bokedItem) :
    StoreInv (guarded h E req db).2.tutors ∧ StoreInv (guarded h E req db).2.bokedItem := by
  simp only [guarded]
  split
  · exact ⟨h1, h2⟩
  · exact hh _

end LanguageExchange
